import Mathlib

/-!
Shallow embedding of the CNN accelerator driver
(`src/software/src/cnn_accelerator.c`, `src/software/include/cnn_accelerator.h`).

Hardware is external to the driver: every register read that the C code
performs through `Xil_In32` is modelled as an explicit input (a single status
word, or a stream `ℕ → ℕ` giving the value of the n-th read), and every
register write through `Xil_Out32` is modelled as an element of an output
list of `(offset, value)` pairs, in program order.  Cache maintenance calls
(`Xil_DCacheFlushRange` / `Xil_DCacheInvalidateRange`) are likewise recorded
as an output list of `CacheOp`s.  The C `float` arithmetic of the
post-processing pipeline is modelled exactly: the Q8.8 codec over `ℚ`
(all quantities involved are exactly representable in binary32) and the
softmax over `ℝ` with `Real.exp` standing for `expf`.
-/

set_option maxHeartbeats 1000000

/-! ### Register map and bit constants (`cnn_accelerator.h`) -/

def CNN_REG_CONTROL : ℕ := 0x00
def CNN_REG_STATUS : ℕ := 0x04
def CNN_REG_CONFIG : ℕ := 0x08
def CNN_REG_INPUT_DIM : ℕ := 0x0C
def CNN_REG_WEIGHT_ADDR : ℕ := 0x10
def CNN_REG_BIAS_ADDR : ℕ := 0x14
def CNN_REG_INPUT_ADDR : ℕ := 0x18
def CNN_REG_OUTPUT_ADDR : ℕ := 0x1C
def CNN_REG_IRQ_ENABLE : ℕ := 0x20
def CNN_REG_IRQ_STATUS : ℕ := 0x24

def CNN_CTRL_START : ℕ := 0x01
def CNN_CTRL_STOP : ℕ := 0x02
def CNN_CTRL_RESET : ℕ := 0x04

def CNN_STAT_BUSY : ℕ := 0x01
def CNN_STAT_DONE : ℕ := 0x02
def CNN_STAT_ERROR_MASK : ℕ := 0xF0

def CNN_CFG_LAYER_EN_MASK : ℕ := 0x000000FF
def CNN_CFG_ACT_MASK : ℕ := 0x00000700
def CNN_CFG_ACT_SHIFT : ℕ := 8
def CNN_CFG_POOL_TYPE : ℕ := 0x00000800

def CNN_IRQ_DONE : ℕ := 0x01
def CNN_IRQ_ERROR : ℕ := 0x02

def CNN_MAX_CLASSES : ℕ := 100

/-- `xstatus.h` return codes. -/
def XST_SUCCESS : ℕ := 0

def XST_FAILURE : ℕ := 1

/-! ### Fixed-point codec (`CNN_FixedToFloat` / `CNN_FloatToFixed`) -/

/-- `CNN_FixedToFloat`: `(float)value / 256.0f`.  Q8.8 values and the result
of this division are exactly representable in binary32, so `ℚ` models the
float computation exactly. -/
def CNN_FixedToFloat (value : ℤ) : ℚ := (value : ℚ) / 256

/-- C truncation toward zero of a real quantity when cast to an integer
type (applied after the clamp, so the value is in range). -/
def truncTowardZero (q : ℚ) : ℤ := if 0 ≤ q then ⌊q⌋ else ⌈q⌉

/-- `CNN_FloatToFixed`: scale by 256, clamp to `[-32768, 32767]`
(two sequential `if`s in the C code), then truncate to int16. -/
def CNN_FloatToFixed (value : ℚ) : ℤ :=
  let scaled := value * 256
  let scaled1 := if 32767 < scaled then (32767 : ℚ) else scaled
  let scaled2 := if scaled1 < -32768 then (-32768 : ℚ) else scaled1
  truncTowardZero scaled2

/-! ### Data model (`CnnConfig_t`, `CnnAccelerator_t`, `CnnStatus_t`) -/

structure CnnConfig where
  input_width : ℕ
  input_height : ℕ
  input_channels : ℕ
  num_classes : ℕ
  layer_enable : ℕ
  activation : ℕ
  pool_type : ℕ
deriving DecidableEq

structure CnnHandle where
  base_addr : ℕ
  dma_video_addr : ℕ
  dma_weights_addr : ℕ
  config : CnnConfig
  weight_mem_addr : ℕ
  bias_mem_addr : ℕ
  input_frame_addr : ℕ
  output_result_addr : ℕ
  inference_done : Bool
deriving DecidableEq

structure CnnStatus where
  busy : Bool
  done : Bool
  error_code : ℕ
  cycles : ℕ
  operations : ℕ
deriving DecidableEq

/-- A cache-maintenance call performed by the driver. -/
inductive CacheOp where
  | flushRange (addr len : ℕ)
  | invalidateRange (addr len : ℕ)
deriving DecidableEq

/-- The handle as `CNN_Init` leaves it (lines 34-53 of the C file):
default addresses, default 128x128x3 / 10-class configuration
(`CNN_ACT_RELU` = 1, `CNN_POOL_MAX` = 0), completion flag cleared. -/
def initHandle : CnnHandle :=
  { base_addr := 0x80000000
    dma_video_addr := 0x80010000
    dma_weights_addr := 0x80020000
    config :=
      { input_width := 128
        input_height := 128
        input_channels := 3
        num_classes := 10
        layer_enable := 0xFF
        activation := 1
        pool_type := 0 }
    weight_mem_addr := 0x10000000
    bias_mem_addr := 0x18000000
    input_frame_addr := 0x20000000
    output_result_addr := 0x28000000
    inference_done := false }

/-! ### Driver operations -/

/-- `CNN_Configure`: validate dimensions; on failure return `XST_FAILURE`
with the handle unchanged and no register writes; on success persist the
config into the handle and write the config, dimension and four address
registers.  Returns `(return code, new handle, register writes)`. -/
def CNN_Configure (cnn : CnnHandle) (config : CnnConfig) :
    ℕ × CnnHandle × List (ℕ × ℕ) :=
  if config.input_width = 0 ∨ config.input_height = 0 ∨
      224 < config.input_width ∨ 224 < config.input_height then
    (XST_FAILURE, cnn, [])
  else
    let cfg_reg := (config.layer_enable &&& CNN_CFG_LAYER_EN_MASK) |||
        ((config.activation <<< CNN_CFG_ACT_SHIFT) &&& CNN_CFG_ACT_MASK) |||
        (if config.pool_type = 1 then CNN_CFG_POOL_TYPE else 0)
    let dim_reg := (config.input_height <<< 16) ||| config.input_width
    (XST_SUCCESS, { cnn with config := config },
      [(CNN_REG_CONFIG, cfg_reg), (CNN_REG_INPUT_DIM, dim_reg),
        (CNN_REG_WEIGHT_ADDR, cnn.weight_mem_addr),
        (CNN_REG_BIAS_ADDR, cnn.bias_mem_addr),
        (CNN_REG_INPUT_ADDR, cnn.input_frame_addr),
        (CNN_REG_OUTPUT_ADDR, cnn.output_result_addr)])

/-- `CNN_Reset`: assert reset, clear it, clear all pending interrupt bits,
clear the completion flag. -/
def CNN_Reset (cnn : CnnHandle) : CnnHandle × List (ℕ × ℕ) :=
  ({ cnn with inference_done := false },
    [(CNN_REG_CONTROL, CNN_CTRL_RESET), (CNN_REG_CONTROL, 0),
      (CNN_REG_IRQ_STATUS, 0xFFFFFFFF)])

/-- `CNN_LoadWeights`: `weights = none` models a NULL pointer.  On success
the weight region is flushed and its address register rewritten; the handle
itself is unchanged. -/
def CNN_LoadWeights (cnn : CnnHandle) (weights : Option (List ℤ)) (size : ℕ) :
    ℕ × CnnHandle × List (ℕ × ℕ) × List CacheOp :=
  match weights with
  | none => (XST_FAILURE, cnn, [], [])
  | some _ =>
    if size = 0 then (XST_FAILURE, cnn, [], [])
    else
      (XST_SUCCESS, cnn, [(CNN_REG_WEIGHT_ADDR, cnn.weight_mem_addr)],
        [CacheOp.flushRange cnn.weight_mem_addr size])

/-- `CNN_LoadBiases`: same shape as `CNN_LoadWeights` for the bias region. -/
def CNN_LoadBiases (cnn : CnnHandle) (biases : Option (List ℤ)) (size : ℕ) :
    ℕ × CnnHandle × List (ℕ × ℕ) × List CacheOp :=
  match biases with
  | none => (XST_FAILURE, cnn, [], [])
  | some _ =>
    if size = 0 then (XST_FAILURE, cnn, [], [])
    else
      (XST_SUCCESS, cnn, [(CNN_REG_BIAS_ADDR, cnn.bias_mem_addr)],
        [CacheOp.flushRange cnn.bias_mem_addr size])

/-- `CNN_StartInference`: `status` is the value the status-register read
returns.  If the busy bit is set the call fails before any write, cache op
or handle mutation; otherwise it writes the frame address, flushes the
input frame, clears the completion flag and writes the start bit. -/
def CNN_StartInference (cnn : CnnHandle) (status frame_addr : ℕ) :
    ℕ × CnnHandle × List (ℕ × ℕ) × List CacheOp :=
  if status &&& CNN_STAT_BUSY ≠ 0 then
    (XST_FAILURE, cnn, [], [])
  else
    let frame_size := cnn.config.input_width * cnn.config.input_height *
        cnn.config.input_channels * 2
    (XST_SUCCESS, { cnn with inference_done := false },
      [(CNN_REG_INPUT_ADDR, frame_addr), (CNN_REG_CONTROL, CNN_CTRL_START)],
      [CacheOp.flushRange frame_addr frame_size])

/-- How one run of the `CNN_WaitForCompletion` polling loop exits. -/
inductive WaitExit where
  | doneFirst
  | doneRecheck
  | errBits
  | timedOut
deriving DecidableEq

/-- The exit's C return code: both done paths return `XST_SUCCESS`, the
error-bits path and the timeout path return `XST_FAILURE`. -/
def waitExitCode : WaitExit → ℕ
  | WaitExit.doneFirst => XST_SUCCESS
  | WaitExit.doneRecheck => XST_SUCCESS
  | WaitExit.errBits => XST_FAILURE
  | WaitExit.timedOut => XST_FAILURE

/-- The polling loop of `CNN_WaitForCompletion` (lines 218-245).
`stream n` is the value returned by the n-th status-register read; `ridx`
counts reads issued so far and `elapsed` counts completed 1 ms sleeps.
Each iteration: read status; if done, succeed; if not busy, fail when the
error nibble is set, otherwise re-read once and succeed if that read shows
done; then fail if a nonzero timeout has elapsed, otherwise sleep 1 ms and
loop.  `fuel` bounds the number of iterations modelled; `none` means the
loop is still running after `fuel` iterations.  The returned `ℕ` is the
value of `elapsed` at exit, i.e. how many 1 ms sleeps happened before the
call returned. -/
def waitLoop (stream : ℕ → ℕ) (timeout_ms : ℕ) : ℕ → ℕ → ℕ → Option (WaitExit × ℕ)
  | 0, _, _ => none
  | fuel + 1, ridx, elapsed =>
    if stream ridx &&& CNN_STAT_DONE ≠ 0 then
      some (WaitExit.doneFirst, elapsed)
    else if stream ridx &&& CNN_STAT_BUSY = 0 ∧
        stream ridx &&& CNN_STAT_ERROR_MASK ≠ 0 then
      some (WaitExit.errBits, elapsed)
    else if stream ridx &&& CNN_STAT_BUSY = 0 ∧
        stream (ridx + 1) &&& CNN_STAT_DONE ≠ 0 then
      some (WaitExit.doneRecheck, elapsed)
    else if 0 < timeout_ms ∧ timeout_ms ≤ elapsed then
      some (WaitExit.timedOut, elapsed)
    else
      waitLoop stream timeout_ms fuel
        (if stream ridx &&& CNN_STAT_BUSY = 0 then ridx + 2 else ridx + 1)
        (elapsed + 1)

/-- `CNN_WaitForCompletion`: run the polling loop; on either done exit the
completion flag is set before returning `XST_SUCCESS`; on the error and
timeout exits the handle is unchanged and `XST_FAILURE` is returned.
Result: `(return code, new handle, elapsed ms)`, or `none` if the loop has
not exited within `fuel` iterations. -/
def CNN_WaitForCompletion (cnn : CnnHandle) (stream : ℕ → ℕ)
    (timeout_ms fuel : ℕ) : Option (ℕ × CnnHandle × ℕ) :=
  match waitLoop stream timeout_ms fuel 0 0 with
  | none => none
  | some (ex, elapsed) =>
    if ex = WaitExit.doneFirst ∨ ex = WaitExit.doneRecheck then
      some (XST_SUCCESS, { cnn with inference_done := true }, elapsed)
    else
      some (XST_FAILURE, cnn, elapsed)

/-- `CNN_IsComplete`: if the cached flag is set, answer 1 immediately;
otherwise read the status register once (`status` is the value returned)
and latch the flag if the done bit is set.  Result:
`(answer, new handle, number of status reads issued)`. -/
def CNN_IsComplete (cnn : CnnHandle) (status : ℕ) : ℕ × CnnHandle × ℕ :=
  if cnn.inference_done then (1, cnn, 0)
  else if status &&& CNN_STAT_DONE ≠ 0 then
    (1, { cnn with inference_done := true }, 1)
  else (0, cnn, 1)

/-- `CNN_GetStatus`: decode a status-register read plus the two performance
counters into a `CnnStatus` snapshot; the handle is untouched. -/
def CNN_GetStatus (cnn : CnnHandle) (reg_status cycles ops : ℕ) :
    CnnStatus × CnnHandle :=
  ({ busy := decide (reg_status &&& CNN_STAT_BUSY ≠ 0)
     done := decide (reg_status &&& CNN_STAT_DONE ≠ 0)
     error_code := (reg_status &&& CNN_STAT_ERROR_MASK) >>> 4
     cycles := cycles
     operations := ops }, cnn)

/-- `CNN_Stop`: write the stop bit and clear the completion flag. -/
def CNN_Stop (cnn : CnnHandle) : CnnHandle × List (ℕ × ℕ) :=
  ({ cnn with inference_done := false }, [(CNN_REG_CONTROL, CNN_CTRL_STOP)])

/-- `CNN_EnableInterrupt`. -/
def CNN_EnableInterrupt (cnn : CnnHandle) (enable : Bool) :
    CnnHandle × List (ℕ × ℕ) :=
  (cnn,
    [(CNN_REG_IRQ_ENABLE,
      if enable then CNN_IRQ_DONE ||| CNN_IRQ_ERROR else 0)])

/-- `CNN_ClearInterrupt`: write back the interrupt-status value just read
(write-1-to-clear); the handle is untouched. -/
def CNN_ClearInterrupt (cnn : CnnHandle) (irq_status : ℕ) :
    CnnHandle × List (ℕ × ℕ) :=
  (cnn, [(CNN_REG_IRQ_STATUS, irq_status)])

/-- `CNN_InterruptHandler`: latch the completion flag if the done interrupt
bit is set, then clear the handled bits by writing them back. -/
def CNN_InterruptHandler (cnn : CnnHandle) (irq_status : ℕ) :
    CnnHandle × List (ℕ × ℕ) :=
  (if irq_status &&& CNN_IRQ_DONE ≠ 0 then
      { cnn with inference_done := true }
    else cnn,
    [(CNN_REG_IRQ_STATUS, irq_status)])

/-! ### Post-processing pipeline (`CNN_Softmax`, `CNN_GetTopK`, `CNN_GetResult`) -/

/-- The running maximum computed by the first loop of `CNN_Softmax`:
start from element 0 and fold `max` over the rest.  (The C code reads
`input[0]` unconditionally; the empty case is unreachable for the sizes
the driver passes and is given the dummy value 0.) -/
noncomputable def softmaxMaxVal (l : List ℝ) : ℝ :=
  match l with
  | [] => 0
  | h :: t => t.foldl max h

/-- `CNN_Softmax`: decode each Q8.8 logit, subtract the running maximum,
exponentiate (`Real.exp` models `expf`), sum, and divide each element by
the sum. -/
noncomputable def CNN_Softmax (input : List ℤ) : List ℝ :=
  let decoded := input.map fun v => ((CNN_FixedToFloat v : ℚ) : ℝ)
  let m := softmaxMaxVal decoded
  let exps := decoded.map fun v => Real.exp (v - m)
  exps.map fun e => e / exps.sum

/-- The loop body of the inner scan of `CNN_GetTopK` (lines 430-435):
take index `i` when it is unselected and `probs[i]` strictly exceeds the
running maximum — so the first occurrence of equal values wins. -/
def scanStep {A : Type} [LinearOrderedField A] (selected : List Bool)
    (acc : A × Option ℕ) (iv : ℕ × A) : A × Option ℕ :=
  if selected.getD iv.1 false = false ∧ acc.1 < iv.2 then
    (iv.2, some iv.1)
  else acc

/-- The inner scan of `CNN_GetTopK` (lines 427-435): fold the loop body
over all indices, starting from `max_prob = -1`, `max_idx = -1` (modelled
as `none`). -/
def scanMax {A : Type} [LinearOrderedField A] (probs : List A)
    (selected : List Bool) : A × Option ℕ :=
  probs.enum.foldl (scanStep selected) (-1, none)

/-- The outer rounds of `CNN_GetTopK`: each round scans for the maximum
unselected probability; if one is found (`max_idx >= 0`) it is appended to
the results and marked selected, otherwise the round appends nothing and
the loop continues. -/
def topKGo {A : Type} [LinearOrderedField A] (probs : List A) :
    ℕ → List Bool → List (ℕ × A)
  | 0, _ => []
  | k + 1, selected =>
    match scanMax probs selected with
    | (_, none) => topKGo probs k selected
    | (mp, some mi) => (mi, mp) :: topKGo probs k (selected.set mi true)

/-- `CNN_GetTopK`: run `top_k` selection rounds with all indices initially
unselected; the result list holds the `{class_id, confidence}` entries the
C code writes into `results`, in order. -/
def CNN_GetTopK {A : Type} [LinearOrderedField A] (probs : List A)
    (top_k : ℕ) : List (ℕ × A) :=
  topKGo probs top_k (List.replicate probs.length false)

/-- Modelled from the spec: one round of the reference repeated-selection
algorithm of section 4.4 — "scan all not-yet-selected indices, pick the
maximum probability (first occurrence wins ties)" — with no sentinel value,
used only to compare against `scanMax`. -/
def specStep {A : Type} [LinearOrderedField A] (selected : List Bool)
    (acc : Option (ℕ × A)) (iv : ℕ × A) : Option (ℕ × A) :=
  if selected.getD iv.1 false = false then
    match acc with
    | none => some iv
    | some jq => if jq.2 < iv.2 then some iv else acc
  else acc

/-- Modelled from the spec: the full scan over all not-yet-selected
indices for one reference round. -/
def specScan {A : Type} [LinearOrderedField A] (probs : List A)
    (selected : List Bool) : Option (ℕ × A) :=
  probs.enum.foldl (specStep selected) none

/-- Modelled from the spec: the reference repeated-selection rounds of
section 4.4 — each round picks the maximum unselected probability, marks
it selected and appends `{index, probability}`; when no unselected index
remains, no further results are produced. -/
def topKSpecGo {A : Type} [LinearOrderedField A] (probs : List A) :
    ℕ → List Bool → List (ℕ × A)
  | 0, _ => []
  | k + 1, selected =>
    match specScan probs selected with
    | none => []
    | some ip => ip :: topKSpecGo probs k (selected.set ip.1 true)

/-- Modelled from the spec: `TopK(probabilities, k)` of section 4.4. -/
def topKSpec {A : Type} [LinearOrderedField A] (probs : List A) (k : ℕ) :
    List (ℕ × A) :=
  topKSpecGo probs k (List.replicate probs.length false)

/-- The classification part of `InferenceResult_t` as `CNN_GetResult`
fills it in. -/
structure InferenceResult where
  num_results : ℕ
  classifications : List (ℕ × ℝ)

/-- `CNN_GetResult`: fail with no side effect when the completion flag is
not set; otherwise invalidate the output region (`num_classes * 2` bytes),
read the raw logits (`raw_output` models the `num_classes` int16 values in
device memory), run softmax and top-K with `min(num_classes, 5)` results.
Result: `(return code, handle, result structure if populated, cache ops)`. -/
noncomputable def CNN_GetResult (cnn : CnnHandle) (raw_output : List ℤ) :
    ℕ × CnnHandle × Option InferenceResult × List CacheOp :=
  if cnn.inference_done = false then
    (XST_FAILURE, cnn, none, [])
  else
    let output_size := cnn.config.num_classes * 2
    let probs := CNN_Softmax raw_output
    let num_results :=
      if cnn.config.num_classes < 5 then cnn.config.num_classes else 5
    (XST_SUCCESS, cnn,
      some { num_results := num_results
             classifications := CNN_GetTopK probs num_results },
      [CacheOp.invalidateRange cnn.output_result_addr output_size])

/-! ### Concrete inputs used by witnesses and counterexamples -/

/-- A status stream whose first read has the error nibble set (0x10) with
busy and done clear, and whose re-read shows done (0x02): the race window
the spec's re-check sentence describes. -/
def raceStream (n : ℕ) : ℕ := if n = 0 then 0x10 else 0x02

/-- A status source that is forever busy and never done. -/
def busyStream (_ : ℕ) : ℕ := 0x01

/-- `initHandle` after a completion has been observed. -/
def doneHandle : CnnHandle := { initHandle with inference_done := true }

/-- A configuration that is dimension-valid but declares 200 classes,
twice `CNN_MAX_CLASSES`. -/
def overMaxClassesConfig : CnnConfig :=
  { input_width := 128
    input_height := 128
    input_channels := 3
    num_classes := 200
    layer_enable := 0xFF
    activation := 1
    pool_type := 0 }

/-! ### Helper lemmas -/

theorem list_sum_map_div (l : List ℝ) (c : ℝ) :
    (l.map fun x => x / c).sum = l.sum / c := by
  induction l with
  | nil => simp
  | cons a t ih => simp [ih, add_div]

/-! ### Claim theorems -/

/-- Claim C9: for every 16-bit signed Q8.8 value `v`, converting to float
(divide by 256) and back (scale by 256, saturate to `[-32768, 32767]`,
truncate) is the identity on the full int16 range. -/
theorem fixed_roundtrip (v : ℤ) (hlo : -32768 ≤ v) (hhi : v ≤ 32767) :
    CNN_FloatToFixed (CNN_FixedToFloat v) = v := by
  have h256 : ((v : ℚ) / 256) * 256 = (v : ℚ) := by
    field_simp
  have hq_hi : ¬ (32767 : ℚ) < (v : ℚ) := by
    push_neg
    exact_mod_cast hhi
  have hq_lo : ¬ (v : ℚ) < (-32768 : ℚ) := by
    push_neg
    exact_mod_cast hlo
  simp only [CNN_FloatToFixed, CNN_FixedToFloat, h256, if_neg hq_hi, if_neg hq_lo,
    truncTowardZero]
  by_cases h0 : (0 : ℚ) ≤ (v : ℚ)
  · rw [if_pos h0, Int.floor_intCast]
  · rw [if_neg h0, Int.ceil_intCast]

/-- Witness for C9 at `v = -32768`. -/
theorem fixed_roundtrip_witness :
    (-32768 : ℤ) ≤ -32768 ∧ (-32768 : ℤ) ≤ 32767 ∧
      CNN_FloatToFixed (CNN_FixedToFloat (-32768)) = -32768 :=
  ⟨by decide, by decide, fixed_roundtrip (-32768) (by decide) (by decide)⟩

/-- Claim C6: a configuration whose width or height is 0 or exceeds 224 is
rejected with the handle unchanged and no register writes, and any
configuration with width 128 and height 128 is accepted. -/
theorem configure_validates_dimensions (cnn : CnnHandle) (config : CnnConfig)
    (hbad : config.input_width = 0 ∨ config.input_height = 0 ∨
      224 < config.input_width ∨ 224 < config.input_height) :
    CNN_Configure cnn config = (XST_FAILURE, cnn, []) ∧
      ∀ c : CnnConfig, c.input_width = 128 → c.input_height = 128 →
        (CNN_Configure cnn c).1 = XST_SUCCESS := by
  constructor
  · simp only [CNN_Configure, if_pos hbad]
  · intro c hw hh
    have hok : ¬ (c.input_width = 0 ∨ c.input_height = 0 ∨
        224 < c.input_width ∨ 224 < c.input_height) := by
      rw [hw, hh]
      push_neg
      refine ⟨by norm_num, by norm_num, by norm_num, by norm_num⟩
    simp only [CNN_Configure, if_neg hok]

/-- Witness for C6 at `width = 0` (and the fixed 128x128 acceptance). -/
theorem configure_validates_dimensions_witness :
    CNN_Configure initHandle { overMaxClassesConfig with input_width := 0 } =
        (XST_FAILURE, initHandle, []) ∧
      (CNN_Configure initHandle initHandle.config).1 = XST_SUCCESS :=
  ⟨(configure_validates_dimensions initHandle _ (Or.inl rfl)).1,
    (configure_validates_dimensions initHandle
        { overMaxClassesConfig with input_width := 0 } (Or.inl rfl)).2
      initHandle.config rfl rfl⟩

/-- Claim C4 (code bug): `CNN_Configure` validates only the dimensions, so
a dimension-valid configuration declaring 200 classes — above
`CNN_MAX_CLASSES = 100`, the bound sized into `CNN_GetResult`'s probability
buffer — is accepted and persisted into the handle. -/
theorem configure_accepts_excess_classes :
    (CNN_Configure initHandle overMaxClassesConfig).1 = XST_SUCCESS ∧
      (CNN_Configure initHandle overMaxClassesConfig).2.1.config.num_classes
          = 200 ∧
      CNN_MAX_CLASSES < 200 := by
  refine ⟨?_, ?_, by decide⟩ <;> decide

/-- Claim C3: when the status read reports busy, `CNN_StartInference`
fails, performs no register write (in particular no start-bit write) and
no cache operation, and leaves the handle — its completion flag
included — unchanged. -/
theorem start_inference_busy_rejected (cnn : CnnHandle)
    (status frame_addr : ℕ) (hbusy : status &&& CNN_STAT_BUSY ≠ 0) :
    CNN_StartInference cnn status frame_addr = (XST_FAILURE, cnn, [], []) ∧
      (CNN_StartInference cnn status frame_addr).2.1.inference_done =
        cnn.inference_done := by
  constructor
  · simp only [CNN_StartInference, if_pos hbusy]
  · simp only [CNN_StartInference, if_pos hbusy]

/-- Witness for C3 at `status = 1` (busy bit set). -/
theorem start_inference_busy_rejected_witness :
    (1 : ℕ) &&& CNN_STAT_BUSY ≠ 0 ∧
      CNN_StartInference doneHandle 1 0x20000000 =
        (XST_FAILURE, doneHandle, [], []) :=
  ⟨by decide, (start_inference_busy_rejected doneHandle 1 0x20000000
      (by decide)).1⟩

/-- Claim C7: when the completion flag is not set, `CNN_GetResult` fails
with no cache operation and no result populated, leaving the handle
unchanged. -/
theorem get_result_premature_rejected (cnn : CnnHandle)
    (raw_output : List ℤ) (hnotdone : cnn.inference_done = false) :
    CNN_GetResult cnn raw_output = (XST_FAILURE, cnn, none, []) := by
  simp only [CNN_GetResult, hnotdone, if_pos]

/-- Witness for C7 on the freshly initialized handle. -/
theorem get_result_premature_rejected_witness :
    initHandle.inference_done = false ∧
      CNN_GetResult initHandle [5, -3] = (XST_FAILURE, initHandle, none, []) :=
  ⟨rfl, get_result_premature_rejected initHandle [5, -3] rfl⟩

theorem waitLoop_busy_timeout (stream : ℕ → ℕ)
    (hb : ∀ n, stream n &&& CNN_STAT_DONE = 0 ∧ stream n &&& CNN_STAT_BUSY ≠ 0)
    (T : ℕ) (hT : 0 < T) :
    ∀ fuel ridx elapsed, elapsed ≤ T → T - elapsed < fuel →
      waitLoop stream T fuel ridx elapsed = some (WaitExit.timedOut, T) := by
  intro fuel
  induction fuel with
  | zero =>
    intro ridx elapsed h1 h2
    omega
  | succ n ih =>
    intro ridx elapsed h1 h2
    obtain ⟨hd, hbusy⟩ := hb ridx
    rw [waitLoop]
    rw [if_neg (by simp [hd]), if_neg (by simp [hbusy]), if_neg (by simp [hbusy])]
    by_cases he : T ≤ elapsed
    · have : elapsed = T := le_antisymm h1 he
      rw [if_pos ⟨hT, he⟩, this]
    · rw [if_neg (by simp [he])]
      exact ih _ (elapsed + 1) (by omega) (by omega)

theorem waitLoop_busy_unbounded (stream : ℕ → ℕ)
    (hb : ∀ n, stream n &&& CNN_STAT_DONE = 0 ∧ stream n &&& CNN_STAT_BUSY ≠ 0) :
    ∀ fuel ridx elapsed, waitLoop stream 0 fuel ridx elapsed = none := by
  intro fuel
  induction fuel with
  | zero => intro ridx elapsed; rfl
  | succ n ih =>
    intro ridx elapsed
    obtain ⟨hd, hbusy⟩ := hb ridx
    rw [waitLoop]
    rw [if_neg (by simp [hd]), if_neg (by simp [hbusy]), if_neg (by simp [hbusy]),
      if_neg (by simp)]
    exact ih _ _

theorem waitLoop_zero_timeout_no_timedOut (stream : ℕ → ℕ) :
    ∀ fuel ridx elapsed ex e,
      waitLoop stream 0 fuel ridx elapsed = some (ex, e) →
      ex ≠ WaitExit.timedOut := by
  intro fuel
  induction fuel with
  | zero =>
    intro ridx elapsed ex e h
    simp [waitLoop] at h
  | succ n ih =>
    intro ridx elapsed ex e h
    rw [waitLoop] at h
    split at h
    · simp at h
      simp [← h.1]
    · split at h
      · simp at h
        simp [← h.1]
      · split at h
        · simp at h
          simp [← h.1]
        · rw [if_neg (by simp)] at h
          exact ih _ _ _ _ h

/-- Claim C2: against a status source that is forever busy and never done,
a polled wait with a nonzero timeout `T` returns the timeout failure with
exactly `T` one-millisecond sleeps performed before returning (so not
before `T` ms have elapsed); with timeout 0 the loop never exits at all
for such a source, and — for any status source — a wait with timeout 0
never produces the timeout exit. -/
theorem wait_timeout_behaviour (stream : ℕ → ℕ)
    (hb : ∀ n, stream n &&& CNN_STAT_DONE = 0 ∧ stream n &&& CNN_STAT_BUSY ≠ 0) :
    (∀ T fuel, 0 < T → T < fuel →
      waitLoop stream T fuel 0 0 = some (WaitExit.timedOut, T) ∧
        ∀ cnn : CnnHandle,
          CNN_WaitForCompletion cnn stream T fuel = some (XST_FAILURE, cnn, T)) ∧
      (∀ fuel ridx elapsed, waitLoop stream 0 fuel ridx elapsed = none) ∧
      ∀ s2 : ℕ → ℕ, ∀ fuel ridx elapsed ex e,
        waitLoop s2 0 fuel ridx elapsed = some (ex, e) →
        ex ≠ WaitExit.timedOut := by
  refine ⟨?_, waitLoop_busy_unbounded stream hb,
    waitLoop_zero_timeout_no_timedOut⟩
  intro T fuel hT hfuel
  have hrun : waitLoop stream T fuel 0 0 = some (WaitExit.timedOut, T) :=
    waitLoop_busy_timeout stream hb T hT fuel 0 0 (by omega) (by omega)
  refine ⟨hrun, ?_⟩
  intro cnn
  rw [CNN_WaitForCompletion, hrun]
  simp

/-- Witness for C2: the constant-busy stream, timeout 50 ms, fuel 52. -/
theorem wait_timeout_behaviour_witness :
    (∀ n, busyStream n &&& CNN_STAT_DONE = 0 ∧
        busyStream n &&& CNN_STAT_BUSY ≠ 0) ∧
      waitLoop busyStream 50 52 0 0 = some (WaitExit.timedOut, 50) ∧
      CNN_WaitForCompletion initHandle busyStream 50 52 =
        some (XST_FAILURE, initHandle, 50) ∧
      waitLoop busyStream 0 1000 0 0 = none := by
  have hb : ∀ n, busyStream n &&& CNN_STAT_DONE = 0 ∧
      busyStream n &&& CNN_STAT_BUSY ≠ 0 := by
    intro n
    simp only [busyStream]
    exact ⟨by decide, by decide⟩
  have h := wait_timeout_behaviour busyStream hb
  exact ⟨hb, (h.1 50 52 (by decide) (by decide)).1,
    (h.1 50 52 (by decide) (by decide)).2 initHandle, h.2.1 1000 0 0⟩

/-- Claim C5 counterexample: the first status read of `raceStream` shows
busy cleared, done clear and the error nibble set (0x10), and the very
next read would show done (0x02); the driver nonetheless returns the
error-bits failure without performing the re-read, not the success the
claim predicts. -/
theorem wait_error_checked_first_counterexample :
    raceStream 0 &&& CNN_STAT_BUSY = 0 ∧
      raceStream 0 &&& CNN_STAT_DONE = 0 ∧
      raceStream 0 &&& CNN_STAT_ERROR_MASK ≠ 0 ∧
      raceStream 1 &&& CNN_STAT_DONE ≠ 0 ∧
      waitLoop raceStream 10 5 0 0 = some (WaitExit.errBits, 0) ∧
      CNN_WaitForCompletion initHandle raceStream 10 5 =
        some (XST_FAILURE, initHandle, 0) := by
  refine ⟨by decide, by decide, by decide, by decide, by decide, by decide⟩

/-- Claim C5 as amended: when a status read shows busy cleared without
done, the driver first checks the error nibble and returns the error
failure if it is set, without re-reading; only when the error nibble is
clear does it re-check the status once more, and a re-read showing done is
reported as success. -/
theorem wait_error_checked_first (stream : ℕ → ℕ)
    (T fuel ridx elapsed : ℕ)
    (hnd : stream ridx &&& CNN_STAT_DONE = 0)
    (hnb : stream ridx &&& CNN_STAT_BUSY = 0) :
    (stream ridx &&& CNN_STAT_ERROR_MASK ≠ 0 →
      waitLoop stream T (fuel + 1) ridx elapsed =
        some (WaitExit.errBits, elapsed)) ∧
      (stream ridx &&& CNN_STAT_ERROR_MASK = 0 →
        stream (ridx + 1) &&& CNN_STAT_DONE ≠ 0 →
        waitLoop stream T (fuel + 1) ridx elapsed =
          some (WaitExit.doneRecheck, elapsed)) := by
  constructor
  · intro herr
    rw [waitLoop, if_neg (by simp [hnd]), if_pos ⟨hnb, herr⟩]
  · intro herr hrd
    rw [waitLoop, if_neg (by simp [hnd]), if_neg (by simp [herr]),
      if_pos ⟨hnb, hrd⟩]

/-- Witness for the amended C5: the error path on `raceStream` and the
race path on a stream whose first read is all-clear and whose re-read
shows done. -/
theorem wait_error_checked_first_witness :
    waitLoop raceStream 10 4 0 0 = some (WaitExit.errBits, 0) ∧
      waitLoop (fun n => if n = 0 then 0 else 2) 10 4 0 0 =
        some (WaitExit.doneRecheck, 0) := by
  constructor
  · exact (wait_error_checked_first raceStream 10 3 0 0 (by decide)
      (by decide)).1 (by decide)
  · exact (wait_error_checked_first (fun n => if n = 0 then 0 else 2) 10 3 0 0
      (by decide) (by decide)).2 (by decide) (by decide)

/-- Claim C1: for every non-empty logit array, each softmax output lies in
`[0, 1]` and the outputs sum to exactly 1 (in the exact-arithmetic model
of the float computation, hence within any positive tolerance). -/
theorem softmax_normalized (input : List ℤ) (h : input ≠ []) :
    (∀ x ∈ CNN_Softmax input, 0 ≤ x ∧ x ≤ 1) ∧
      (CNN_Softmax input).sum = 1 := by
  simp only [CNN_Softmax]
  set decoded := input.map fun v => ((CNN_FixedToFloat v : ℚ) : ℝ) with hdec
  set m := softmaxMaxVal decoded with hm
  set exps := decoded.map fun v => Real.exp (v - m) with hexps
  have hne : exps ≠ [] := by
    simp only [hexps, hdec, ne_eq, List.map_eq_nil_iff]
    exact h
  have hpos : ∀ e ∈ exps, 0 < e := by
    intro e he
    rw [hexps] at he
    simp only [List.mem_map] at he
    obtain ⟨v, _, rfl⟩ := he
    exact Real.exp_pos _
  have hsum : 0 < exps.sum := List.sum_pos exps hpos hne
  constructor
  · intro x hx
    simp only [List.mem_map] at hx
    obtain ⟨e, he, rfl⟩ := hx
    refine ⟨le_of_lt (div_pos (hpos e he) hsum), ?_⟩
    rw [div_le_one hsum]
    exact List.single_le_sum (fun y hy => le_of_lt (hpos y hy)) e he
  · rw [list_sum_map_div]
    exact div_self (ne_of_gt hsum)

/-- Witness for C1 on the one-element logit array `[0]`. -/
theorem softmax_normalized_witness :
    ([(0 : ℤ)] ≠ []) ∧
      (∀ x ∈ CNN_Softmax [(0 : ℤ)], 0 ≤ x ∧ x ≤ 1) ∧
      (CNN_Softmax [(0 : ℤ)]).sum = 1 :=
  ⟨by simp, (softmax_normalized [(0 : ℤ)] (by simp)).1,
    (softmax_normalized [(0 : ℤ)] (by simp)).2⟩

/-- Claim C10: once the completion flag is set, `CNN_IsComplete` answers 1
from the cached flag with zero hardware status reads and leaves the handle
unchanged; no modelled operation other than `CNN_StartInference` (on its
non-busy path), `CNN_Stop` and `CNN_Reset` clears the flag, and those
three do clear it. -/
theorem completion_flag_sticky (cnn : CnnHandle)
    (hdone : cnn.inference_done = true) :
    (∀ status, CNN_IsComplete cnn status = (1, cnn, 0)) ∧
      (∀ config, (CNN_Configure cnn config).2.1.inference_done = true) ∧
      (∀ w s, (CNN_LoadWeights cnn w s).2.1.inference_done = true) ∧
      (∀ b s, (CNN_LoadBiases cnn b s).2.1.inference_done = true) ∧
      (∀ stream t fuel r c e,
        CNN_WaitForCompletion cnn stream t fuel = some (r, c, e) →
        c.inference_done = true) ∧
      (∀ raw, (CNN_GetResult cnn raw).2.1.inference_done = true) ∧
      (∀ rs cy o, (CNN_GetStatus cnn rs cy o).2.inference_done = true) ∧
      (∀ en, (CNN_EnableInterrupt cnn en).1.inference_done = true) ∧
      (∀ iq, (CNN_ClearInterrupt cnn iq).1.inference_done = true) ∧
      (∀ iq, (CNN_InterruptHandler cnn iq).1.inference_done = true) ∧
      (∀ c2 : CnnHandle, (CNN_Stop c2).1.inference_done = false) ∧
      (∀ c2 : CnnHandle, (CNN_Reset c2).1.inference_done = false) ∧
      ∀ (c2 : CnnHandle) status fa, status &&& CNN_STAT_BUSY = 0 →
        (CNN_StartInference c2 status fa).2.1.inference_done = false := by
  refine ⟨?_, ?_, ?_, ?_, ?_, ?_, ?_, ?_, ?_, ?_, ?_, ?_, ?_⟩
  · intro status
    simp [CNN_IsComplete, hdone]
  · intro config
    by_cases hv : config.input_width = 0 ∨ config.input_height = 0 ∨
        224 < config.input_width ∨ 224 < config.input_height
    · simp [CNN_Configure, if_pos hv, hdone]
    · simp [CNN_Configure, if_neg hv, hdone]
  · intro w s
    cases w with
    | none => simp [CNN_LoadWeights, hdone]
    | some l =>
      by_cases hs : s = 0
      · simp [CNN_LoadWeights, hs, hdone]
      · simp [CNN_LoadWeights, hs, hdone]
  · intro b s
    cases b with
    | none => simp [CNN_LoadBiases, hdone]
    | some l =>
      by_cases hs : s = 0
      · simp [CNN_LoadBiases, hs, hdone]
      · simp [CNN_LoadBiases, hs, hdone]
  · intro stream t fuel r c e hcall
    rw [CNN_WaitForCompletion] at hcall
    cases hw : waitLoop stream t fuel 0 0 with
    | none => rw [hw] at hcall; simp at hcall
    | some p =>
      obtain ⟨ex, el⟩ := p
      rw [hw] at hcall
      by_cases hex : ex = WaitExit.doneFirst ∨ ex = WaitExit.doneRecheck
      · simp only [if_pos hex, Option.some.injEq, Prod.mk.injEq] at hcall
        obtain ⟨-, hc, -⟩ := hcall
        rw [← hc]
      · simp only [if_neg hex, Option.some.injEq, Prod.mk.injEq] at hcall
        obtain ⟨-, hc, -⟩ := hcall
        rw [← hc]
        exact hdone
  · intro raw
    simp [CNN_GetResult, hdone]
  · intro rs cy o
    simp [CNN_GetStatus, hdone]
  · intro en
    simp [CNN_EnableInterrupt, hdone]
  · intro iq
    simp [CNN_ClearInterrupt, hdone]
  · intro iq
    by_cases hb : iq &&& CNN_IRQ_DONE ≠ 0
    · simp [CNN_InterruptHandler, if_pos hb]
    · simp [CNN_InterruptHandler, if_neg hb, hdone]
  · intro c2
    simp [CNN_Stop]
  · intro c2
    simp [CNN_Reset]
  · intro c2 status fa hnb
    simp [CNN_StartInference, hnb]

/-- Witness for C10 on `doneHandle` (flag set): `CNN_IsComplete` answers
from the cache with zero reads, and a sample preserving operation keeps
the flag. -/
theorem completion_flag_sticky_witness :
    doneHandle.inference_done = true ∧
      CNN_IsComplete doneHandle 0 = (1, doneHandle, 0) ∧
      (CNN_ClearInterrupt doneHandle 3).1.inference_done = true ∧
      (CNN_Stop doneHandle).1.inference_done = false :=
  ⟨rfl, (completion_flag_sticky doneHandle rfl).1 0,
    (completion_flag_sticky doneHandle rfl).2.2.2.2.2.2.2.2.1 3,
    (completion_flag_sticky doneHandle rfl).2.2.2.2.2.2.2.2.2.2.1 doneHandle⟩

theorem scanStep_fold_mono {A : Type} [LinearOrderedField A] (sel : List Bool) :
    ∀ (L : List (ℕ × A)) (a : A × Option ℕ),
      a.1 ≤ (L.foldl (scanStep sel) a).1 := by
  intro L
  induction L with
  | nil => intro a; exact le_refl _
  | cons iv t ih =>
    intro a
    rw [List.foldl_cons]
    refine le_trans ?_ (ih (scanStep sel a iv))
    simp only [scanStep]
    split
    · next h => exact le_of_lt h.2
    · exact le_refl _

theorem scanStep_fold_bound {A : Type} [LinearOrderedField A] (sel : List Bool) :
    ∀ (L : List (ℕ × A)) (a : A × Option ℕ) (iv : ℕ × A), iv ∈ L →
      sel.getD iv.1 false = false → iv.2 ≤ (L.foldl (scanStep sel) a).1 := by
  intro L
  induction L with
  | nil => intro a iv h; exact absurd h (List.not_mem_nil iv)
  | cons jw t ih =>
    intro a iv hmem hgood
    rw [List.foldl_cons]
    rcases List.mem_cons.mp hmem with heq | htail
    · subst heq
      refine le_trans ?_ (scanStep_fold_mono sel t (scanStep sel a iv))
      simp only [scanStep]
      split
      · exact le_refl _
      · next h =>
        rcases not_and_or.mp h with h1 | h2
        · exact absurd hgood h1
        · exact le_of_not_lt h2
    · exact ih (scanStep sel a jw) iv htail hgood

theorem scanStep_fold_provenance {A : Type} [LinearOrderedField A]
    (sel : List Bool) :
    ∀ (L : List (ℕ × A)) (a : A × Option ℕ),
      L.foldl (scanStep sel) a = a ∨
        ∃ iv ∈ L, sel.getD iv.1 false = false ∧
          L.foldl (scanStep sel) a = (iv.2, some iv.1) := by
  intro L
  induction L with
  | nil => intro a; exact Or.inl rfl
  | cons jw t ih =>
    intro a
    rw [List.foldl_cons]
    rcases ih (scanStep sel a jw) with heq | ⟨iv, hmem, hgood, heq⟩
    · rw [heq]
      simp only [scanStep]
      split
      · next h => exact Or.inr ⟨jw, List.mem_cons_self jw t, h.1, rfl⟩
      · exact Or.inl rfl
    · exact Or.inr ⟨iv, List.mem_cons_of_mem jw hmem, hgood, heq⟩

theorem scanMax_le {A : Type} [LinearOrderedField A] (probs : List A)
    (sel : List Bool) (iv : ℕ × A) (hmem : iv ∈ probs.enum)
    (hgood : sel.getD iv.1 false = false) :
    iv.2 ≤ (scanMax probs sel).1 :=
  scanStep_fold_bound sel probs.enum (-1, none) iv hmem hgood

theorem scanMax_provenance {A : Type} [LinearOrderedField A] (probs : List A)
    (sel : List Bool) :
    scanMax probs sel = (-1, none) ∨
      ∃ iv ∈ probs.enum, sel.getD iv.1 false = false ∧
        scanMax probs sel = (iv.2, some iv.1) :=
  scanStep_fold_provenance sel probs.enum (-1, none)

/-- The simulation relation between the code scan's accumulator (sentinel
`max_prob = -1`, `max_idx = -1`) and the reference scan's accumulator. -/
def scanRel {A : Type} [LinearOrderedField A] (a : A × Option ℕ)
    (b : Option (ℕ × A)) : Prop :=
  (a = (-1, none) ∧ b = none) ∨
    ∃ i p, (-1 : A) < p ∧ a = (p, some i) ∧ b = some (i, p)

theorem scanRel_step {A : Type} [LinearOrderedField A] (sel : List Bool)
    (iv : ℕ × A) (hiv : 0 ≤ iv.2) (a : A × Option ℕ) (b : Option (ℕ × A))
    (hr : scanRel a b) : scanRel (scanStep sel a iv) (specStep sel b iv) := by
  by_cases hgood : sel.getD iv.1 false = false
  · rcases hr with ⟨ha, hb⟩ | ⟨i, p, hp, ha, hb⟩
    · subst ha; subst hb
      have hlt : (-1 : A) < iv.2 := lt_of_lt_of_le neg_one_lt_zero hiv
      simp only [scanStep, specStep, if_pos (And.intro hgood hlt), if_pos hgood]
      exact Or.inr ⟨iv.1, iv.2, hlt, rfl, rfl⟩
    · subst ha; subst hb
      by_cases hcmp : (p : A) < iv.2
      · simp only [scanStep, specStep, if_pos (And.intro hgood hcmp),
          if_pos hgood, if_pos hcmp]
        exact Or.inr ⟨iv.1, iv.2, lt_trans hp hcmp, rfl, rfl⟩
      · simp only [scanStep, specStep,
          if_neg (fun hc => hcmp hc.2 :
            ¬(sel.getD iv.1 false = false ∧ (p : A) < iv.2)),
          if_pos hgood, if_neg hcmp]
        exact Or.inr ⟨i, p, hp, rfl, rfl⟩
  · rcases hr with ⟨ha, hb⟩ | ⟨i, p, hp, ha, hb⟩
    · subst ha; subst hb
      simp only [scanStep, specStep,
        if_neg (fun hc => hgood hc.1 :
          ¬(sel.getD iv.1 false = false ∧ (-1 : A) < iv.2)),
        if_neg hgood]
      exact Or.inl ⟨rfl, rfl⟩
    · subst ha; subst hb
      simp only [scanStep, specStep,
        if_neg (fun hc => hgood hc.1 :
          ¬(sel.getD iv.1 false = false ∧ (p : A) < iv.2)),
        if_neg hgood]
      exact Or.inr ⟨i, p, hp, rfl, rfl⟩

theorem scanRel_fold {A : Type} [LinearOrderedField A] (sel : List Bool) :
    ∀ (L : List (ℕ × A)), (∀ iv ∈ L, 0 ≤ iv.2) →
      ∀ (a : A × Option ℕ) (b : Option (ℕ × A)), scanRel a b →
        scanRel (L.foldl (scanStep sel) a) (L.foldl (specStep sel) b) := by
  intro L
  induction L with
  | nil => intro _ a b hr; exact hr
  | cons iv t ih =>
    intro hL a b hr
    rw [List.foldl_cons, List.foldl_cons]
    exact ih (fun jw hj => hL jw (List.mem_cons_of_mem iv hj))
      (scanStep sel a iv) (specStep sel b iv)
      (scanRel_step sel iv (hL iv (List.mem_cons_self iv t)) a b hr)

theorem scanMax_agrees_specScan {A : Type} [LinearOrderedField A]
    (probs : List A) (sel : List Bool)
    (hp : ∀ iv ∈ probs.enum, 0 ≤ iv.2) :
    (scanMax probs sel = (-1, none) ∧ specScan probs sel = none) ∨
      ∃ i p, (-1 : A) < p ∧ scanMax probs sel = (p, some i) ∧
        specScan probs sel = some (i, p) :=
  scanRel_fold sel probs.enum hp (-1, none) none (Or.inl ⟨rfl, rfl⟩)

theorem getD_set_true (sel : List Bool) :
    ∀ (i j : ℕ), (sel.set i true).getD j false = false →
      sel.getD j false = false := by
  induction sel with
  | nil => intro i j h; simp only [List.set_nil] at h; exact h
  | cons b t ih =>
    intro i j h
    cases i with
    | zero =>
      cases j with
      | zero => simp at h
      | succ j => simpa using h
    | succ i =>
      cases j with
      | zero => simpa using h
      | succ j =>
        simp only [List.set_cons_succ, List.getD_cons_succ] at h ⊢
        exact ih i j h

theorem count_false_set_true (sel : List Bool) :
    ∀ (i : ℕ), i < sel.length → sel.getD i false = false →
      (sel.set i true).count false + 1 = sel.count false := by
  induction sel with
  | nil => intro i h; simp at h
  | cons b t ih =>
    intro i hlen hgood
    cases i with
    | zero =>
      simp only [List.getD_cons_zero] at hgood
      subst hgood
      simp [List.count_cons]
    | succ i =>
      simp only [List.getD_cons_succ] at hgood
      simp only [List.length_cons, Nat.succ_lt_succ_iff] at hlen
      simp only [List.set_cons_succ, List.count_cons]
      have := ih i hlen hgood
      omega

theorem getD_replicate_false (n : ℕ) :
    ∀ (i : ℕ), (List.replicate n false).getD i false = false := by
  induction n with
  | zero => intro i; simp
  | succ m ih =>
    intro i
    cases i with
    | zero => simp [List.replicate_succ]
    | succ i => simp [List.replicate_succ, ih i]

theorem topKGo_succ_none {A : Type} [LinearOrderedField A] (probs : List A)
    (sel : List Bool) (k : ℕ) (q : A) (hs : scanMax probs sel = (q, none)) :
    topKGo probs (k + 1) sel = topKGo probs k sel := by
  simp only [topKGo, hs]

theorem topKGo_succ_some {A : Type} [LinearOrderedField A] (probs : List A)
    (sel : List Bool) (k : ℕ) (mp : A) (mi : ℕ)
    (hs : scanMax probs sel = (mp, some mi)) :
    topKGo probs (k + 1) sel = (mi, mp) :: topKGo probs k (sel.set mi true) := by
  simp only [topKGo, hs]

theorem topKGo_scan_none {A : Type} [LinearOrderedField A] (probs : List A)
    (sel : List Bool) (q : A) (hs : scanMax probs sel = (q, none)) :
    ∀ k, topKGo probs k sel = [] := by
  intro k
  induction k with
  | zero => rfl
  | succ n ih => rw [topKGo_succ_none probs sel n q hs]; exact ih

theorem scanMax_some_facts {A : Type} [LinearOrderedField A] (probs : List A)
    (sel : List Bool) (mp : A) (mi : ℕ)
    (hs : scanMax probs sel = (mp, some mi)) :
    (mi, mp) ∈ probs.enum ∧ sel.getD mi false = false := by
  rcases scanMax_provenance probs sel with hnone | ⟨iv, hmem, hgood, heq⟩
  · rw [hs] at hnone
    exact absurd (congrArg Prod.snd hnone) (by simp)
  · rw [hs] at heq
    obtain ⟨h2, h1⟩ := Prod.mk.injEq .. ▸ heq
    have hiv : iv = (mi, mp) := by
      rcases iv with ⟨a, b⟩
      simp only [Prod.mk.injEq]
      exact ⟨(Option.some.injEq .. ▸ h1).symm, h2.symm⟩
    rw [hiv] at hmem hgood
    exact ⟨hmem, hgood⟩

theorem topKGo_entries {A : Type} [LinearOrderedField A] (probs : List A) :
    ∀ (k : ℕ) (sel : List Bool) (e : ℕ × A), e ∈ topKGo probs k sel →
      e ∈ probs.enum ∧ sel.getD e.1 false = false := by
  intro k
  induction k with
  | zero => intro sel e h; simp [topKGo] at h
  | succ n ih =>
    intro sel e h
    rcases hs : scanMax probs sel with ⟨mp, mi⟩
    cases mi with
    | none =>
      rw [topKGo_scan_none probs sel mp hs] at h
      simp at h
    | some i =>
      rw [topKGo_succ_some probs sel n mp i hs] at h
      rcases List.mem_cons.mp h with heq | htail
      · rw [heq]
        exact scanMax_some_facts probs sel mp i hs
      · obtain ⟨hmem, hgood⟩ := ih (sel.set i true) e htail
        exact ⟨hmem, getD_set_true sel i e.1 hgood⟩

theorem topKGo_pairwise {A : Type} [LinearOrderedField A] (probs : List A) :
    ∀ (k : ℕ) (sel : List Bool),
      (topKGo probs k sel).Pairwise (fun x y => y.2 ≤ x.2) := by
  intro k
  induction k with
  | zero => intro sel; simp [topKGo]
  | succ n ih =>
    intro sel
    rcases hs : scanMax probs sel with ⟨mp, mi⟩
    cases mi with
    | none =>
      rw [topKGo_succ_none probs sel n mp hs]
      exact ih sel
    | some i =>
      rw [topKGo_succ_some probs sel n mp i hs]
      rw [List.pairwise_cons]
      refine ⟨?_, ih (sel.set i true)⟩
      intro e he
      obtain ⟨hmem, hgood'⟩ := topKGo_entries probs n (sel.set i true) e he
      have hgood := getD_set_true sel i e.1 hgood'
      have hle := scanMax_le probs sel e hmem hgood
      rw [hs] at hle
      exact hle

theorem topKGo_length {A : Type} [LinearOrderedField A] (probs : List A)
    (hp : ∀ iv ∈ probs.enum, 0 ≤ iv.2) :
    ∀ (k : ℕ) (sel : List Bool), sel.length = probs.length →
      (topKGo probs k sel).length = min k (sel.count false) := by
  intro k
  induction k with
  | zero => intro sel hlen; simp [topKGo]
  | succ n ih =>
    intro sel hlen
    rcases hs : scanMax probs sel with ⟨mp, mi⟩
    cases mi with
    | none =>
      have hmp : mp = -1 := by
        rcases scanMax_provenance probs sel with hnone | ⟨iv, _, _, heq⟩
        · rw [hs] at hnone
          exact congrArg Prod.fst hnone
        · rw [hs] at heq
          exact absurd (congrArg Prod.snd heq) (by simp)
      have hcount : sel.count false = 0 := by
        rw [List.count_eq_zero]
        intro hmem
        obtain ⟨j, hj, hval⟩ := List.mem_iff_getElem.mp hmem
        have hjp : j < probs.length := hlen ▸ hj
        have hiv : (j, probs[j]) ∈ probs.enum := by
          rw [List.mem_enum_iff_getElem?]
          exact List.getElem?_eq_getElem hjp
        have hgood : sel.getD j false = false := by
          rw [List.getD_eq_getElem?_getD, List.getElem?_eq_getElem hj, hval]
          rfl
        have hle := scanMax_le probs sel (j, probs[j]) hiv hgood
        rw [hs, hmp] at hle
        have hge := hp (j, probs[j]) hiv
        simp only at hle hge
        linarith
      rw [topKGo_scan_none probs sel mp hs, hcount]
      simp
    | some i =>
      obtain ⟨hmem, hgood⟩ := scanMax_some_facts probs sel mp i hs
      have hienum : probs[i]? = some mp := List.mem_enum_iff_getElem?.mp hmem
      have hilen : i < sel.length := by
        rw [hlen]
        exact (List.getElem?_eq_some.mp hienum).1
      have hc := count_false_set_true sel i hilen hgood
      rw [topKGo_succ_some probs sel n mp i hs]
      simp only [List.length_cons,
        ih (sel.set i true) (by rw [List.length_set]; exact hlen)]
      omega

theorem topKGo_eq_specGo {A : Type} [LinearOrderedField A] (probs : List A)
    (hp : ∀ iv ∈ probs.enum, 0 ≤ iv.2) :
    ∀ (k : ℕ) (sel : List Bool),
      topKGo probs k sel = topKSpecGo probs k sel := by
  intro k
  induction k with
  | zero => intro sel; rfl
  | succ n ih =>
    intro sel
    rcases scanMax_agrees_specScan probs sel hp with ⟨hc, hsp⟩ |
      ⟨i, p, _, hc, hsp⟩
    · rw [topKGo_scan_none probs sel (-1) hc]
      simp only [topKSpecGo, hsp]
    · rw [topKGo_succ_some probs sel n p i hc]
      simp only [topKSpecGo, hsp]
      exact congrArg _ (ih (sel.set i true))

/-- Claim C8: for every probability array (all entries nonnegative, as
softmax outputs are), `CNN_GetTopK` coincides with the spec's reference
repeated-selection algorithm; it produces `min k N` results, its
confidences are non-increasing in position, and the first entry carries a
value stored at its own index that no other index exceeds. -/
theorem topk_matches_reference {A : Type} [LinearOrderedField A]
    (probs : List A) (k : ℕ) (hp : ∀ x ∈ probs, 0 ≤ x) :
    CNN_GetTopK probs k = topKSpec probs k ∧
      (CNN_GetTopK probs k).length = min k probs.length ∧
      (CNN_GetTopK probs k).Pairwise (fun x y => y.2 ≤ x.2) ∧
      ∀ i p, (CNN_GetTopK probs k).head? = some (i, p) →
        probs[i]? = some p ∧
          ∀ j (hj : j < probs.length), probs[j] ≤ p := by
  have hp' : ∀ iv ∈ probs.enum, 0 ≤ iv.2 := by
    intro iv hmem
    exact hp iv.2 (List.getElem?_mem (List.mem_enum_iff_getElem?.mp hmem))
  refine ⟨?_, ?_, topKGo_pairwise probs k _, ?_⟩
  · exact topKGo_eq_specGo probs hp' k _
  · rw [CNN_GetTopK, topKGo_length probs hp' k _ (List.length_replicate _ _)]
    rw [List.count_replicate_self]
  · intro i p hh
    rcases k with _ | n
    · simp [CNN_GetTopK, topKGo] at hh
    · rcases hs : scanMax probs (List.replicate probs.length false)
        with ⟨mp, mi⟩
      cases mi with
      | none =>
        rw [CNN_GetTopK,
          topKGo_scan_none probs _ mp hs] at hh
        simp at hh
      | some m =>
        rw [CNN_GetTopK, topKGo_succ_some probs _ n mp m hs] at hh
        simp only [List.head?_cons, Option.some.injEq, Prod.mk.injEq] at hh
        obtain ⟨rfl, rfl⟩ := hh
        obtain ⟨hmem, -⟩ := scanMax_some_facts probs _ _ _ hs
        refine ⟨List.mem_enum_iff_getElem?.mp hmem, ?_⟩
        intro j hj
        have hiv : (j, probs[j]) ∈ probs.enum := by
          rw [List.mem_enum_iff_getElem?]
          exact List.getElem?_eq_getElem hj
        have hle := scanMax_le probs (List.replicate probs.length false)
          (j, probs[j]) hiv (getD_replicate_false probs.length j)
        rw [hs] at hle
        exact hle

/-- Witness for C8 on the nonnegative array `[1, 1, 2]` with `k = 5`
(`k` exceeding `N = 3`, and a tie between indices 0 and 1). -/
theorem topk_matches_reference_witness :
    (∀ x ∈ ([1, 1, 2] : List ℚ), 0 ≤ x) ∧
      CNN_GetTopK ([1, 1, 2] : List ℚ) 5 = topKSpec ([1, 1, 2] : List ℚ) 5 ∧
      (CNN_GetTopK ([1, 1, 2] : List ℚ) 5).length = min 5 3 ∧
      CNN_GetTopK ([1, 1, 2] : List ℚ) 5 = [(2, 2), (0, 1), (1, 1)] := by
  have hp : ∀ x ∈ ([1, 1, 2] : List ℚ), 0 ≤ x := by decide
  have h := topk_matches_reference ([1, 1, 2] : List ℚ) 5 hp
  exact ⟨hp, h.1, h.2.1, by decide⟩
